import Mathlib

/-!
Verification of `src/lambda_functions/manageDoc/index.js`, a document
management Lambda handler: multipart form decoding, action routing,
upload/list/download flows backed by an S3 object store.

The JavaScript source is shallowly embedded below.  Buffers become
`List Nat` (byte sequences), JS strings become `String`, the multipart
parser (the external busboy library) is abstracted as a list of already
parsed `Part` events that the source's event handlers fold over, and the
external S3 store is modelled as an association list keyed by object key.
-/

deriving instance DecidableEq for Except

namespace ManageDoc

/-- A byte buffer (JS `Buffer`) as a list of byte values. -/
abbrev Bytes := List Nat

/-- JS string `||` with a string default: the left operand is kept unless
it is falsy (the empty string). Models `a || b` at `String` type. -/
def jsOrStr (a b : String) : String :=
  if a = "" then b else a

/-- JS `||` on two possibly-undefined strings, as in
`event.headers['content-type'] || event.headers['Content-Type']`:
`undefined` and `''` are falsy. -/
def jsOrOpt (a b : Option String) : Option String :=
  match a with
  | some s => if s = "" then b else some s
  | none => b

/-- JS `s.includes(sub)`: substring containment on the character
sequences. -/
def jsIncludes (s sub : String) : Bool :=
  decide (sub.data <:+: s.data)

/-- JS `s.toLowerCase()`, character by character (the strings the source
lowercases — file extensions and metadata keys — are ASCII, where JS
`toLowerCase` and `Char.toLower` agree). -/
def lowerStr (s : String) : String :=
  String.mk (s.data.map Char.toLower)

/-- JS `s.startsWith(p)` / the store's prefix filter, on character
sequences. -/
def strHasPre (pre s : String) : Bool :=
  pre.data.isPrefixOf s.data

/-- JS `String.prototype.split` with a one-character separator, on a
character list.  Always returns a non-empty list of groups. -/
def splitChar (sep : Char) : List Char → List (List Char)
  | [] => [[]]
  | c :: rest =>
    match splitChar sep rest with
    | [] => [[]]
    | g :: gs => if c = sep then [] :: g :: gs else (c :: g) :: gs

/-- JS `s.split(sep).pop()` for a one-character separator: the last group
of the split (the split of any string is non-empty, so the default is
never used). -/
def jsSplitPop (sep : Char) (s : String) : String :=
  String.mk ((splitChar sep s.data).getLastD [])

/-- The request envelope handed to the Lambda handler: the fields of
`event` that the source reads.  The multipart body itself is carried
separately as the list of `Part`s the busboy parser would emit for it. -/
structure Event where
  httpMethod : String
  /-- `event.headers['content-type']` (`none` = property absent). -/
  contentTypeLower : Option String
  /-- `event.headers['Content-Type']`. -/
  contentTypeUpper : Option String
  /-- `event.queryStringParameters?.action`. -/
  queryAction : Option String
  /-- `event.queryStringParameters?.key`. -/
  queryKey : Option String
deriving Repr, DecidableEq

/-- One event emitted by the multipart parser (busboy) while consuming the
body: either a completed file part or a text field part. -/
inductive Part
  | file (fieldname filename mimetype : String) (bytes : Bytes)
  | field (name val : String)
deriving Repr, DecidableEq

/-- Whether a part is a file part. -/
def Part.isFile : Part → Bool
  | .file _ _ _ _ => true
  | .field _ _ => false

/-- The mutable state of `extractFileFromForm`'s closures: `fileData`
(`null` until some file stream ends), `fileName`, `fileType`, and the two
recognised form fields (initialised to `''`). -/
structure DecodeState where
  fileData : Option Bytes
  fileName : String
  fileType : String
  documentValueCode : String
  documentValueTypeCode : String
deriving Repr, DecidableEq

/-- Initial decode state: `fileData = null`, empty strings elsewhere. -/
def initState : DecodeState :=
  { fileData := none, fileName := "", fileType := "",
    documentValueCode := "", documentValueTypeCode := "" }

/-- The source's `bb.on('file', ...)` and `bb.on('field', ...)` handlers,
applied to one parser event.  A file part overwrites `fileName` and
`fileType` immediately and `fileData` when its stream ends; a field part
is stored only if its name is one of the two recognised keys. -/
def processPart (s : DecodeState) : Part → DecodeState
  | .file _ filename mimetype bytes =>
    { s with fileName := filename, fileType := mimetype,
             fileData := some bytes }
  | .field name val =>
    if name = "documentValueCode" then
      { s with documentValueCode := val }
    else if name = "documentValueTypeCode" then
      { s with documentValueTypeCode := val }
    else s

/-- The ways `extractFileFromForm` rejects. -/
inductive DecodeError
  | malformedRequest   -- 'Not a multipart/form-data request'
  | missingFilePart    -- 'No file found in form data'
deriving Repr, DecidableEq

/-- The record `extractFileFromForm` resolves with. -/
structure ExtractedForm where
  fileData : Bytes
  fileName : String
  fileType : String
  documentValueCode : String
  documentValueTypeCode : String
deriving Repr, DecidableEq

/-- Source function `extractFileFromForm`: checks the content-type header declares
`multipart/form-data`, then folds the parser's events over the handler
state; rejects with `missingFilePart` when no file stream completed
(`!fileData`). `parts` is the event sequence busboy emits for the body. -/
def extractFileFromForm (e : Event) (parts : List Part) :
    Except DecodeError ExtractedForm :=
  let contentType := jsOrOpt e.contentTypeLower e.contentTypeUpper
  match contentType with
  | none => .error .malformedRequest
  | some ct =>
    if ¬ jsIncludes ct "multipart/form-data" then .error .malformedRequest
    else
      let s := parts.foldl processPart initState
      match s.fileData with
      | none => .error .missingFilePart
      | some d =>
        .ok { fileData := d, fileName := s.fileName, fileType := s.fileType,
              documentValueCode := s.documentValueCode,
              documentValueTypeCode := s.documentValueTypeCode }

/-- Source constant `ALLOWED_EXTENSIONS`. -/
def ALLOWED_EXTENSIONS : List String :=
  [".docx", ".pdf", ".jpg", ".png", ".jpeg", ".txt", ".xlsx"]

/-- Source expression `` `.${fileName.split('.').pop().toLowerCase()}` ``: a dot, then the
last `.`-separated segment of the filename, lowercased. -/
def fileExtension (fileName : String) : String :=
  "." ++ lowerStr (jsSplitPop '.' fileName)

/-- The `switch (fileExtension.toLowerCase())` block of `uploadFile`:
canonical MIME type for well-known extensions, otherwise the declared
`fileType` is kept. -/
def resolveContentType (fileExtension fileType : String) : String :=
  match lowerStr fileExtension with
  | ".pdf" => "application/pdf"
  | ".docx" =>
    "application/vnd.openxmlformats-officedocument.wordprocessingml.document"
  | ".xlsx" =>
    "application/vnd.openxmlformats-officedocument.spreadsheetml.sheet"
  | ".txt" => "text/plain"
  | ".jpg" => "image/jpeg"
  | ".jpeg" => "image/jpeg"
  | ".png" => "image/png"
  | _ => fileType

/-- An object at rest in the store: body bytes, content type, user
metadata mapping, and the store-assigned last-modified time. -/
structure StoredObject where
  body : Bytes
  contentType : String
  metadata : List (String × String)
  lastModified : Nat
deriving Repr, DecidableEq

/-- The external object store, keyed by object key. -/
abbrev Store := List (String × StoredObject)

/-- Model of the external object store's `PutObjectCommand` (Amazon S3).
Per S3's public contract, user-defined metadata travels as
`x-amz-meta-*` HTTP headers and its keys are stored and returned in
lowercase, so the model lowercases metadata keys on write.  A put on an
existing key replaces the object. -/
def s3Put (store : Store) (key : String) (obj : StoredObject) : Store :=
  (key, { obj with metadata := obj.metadata.map (fun p => (lowerStr p.1, p.2)) })
    :: store.filter (fun p => p.1 ≠ key)

/-- Model of `GetObjectCommand`: fetch by exact key. -/
def s3Get (store : Store) (key : String) : Option StoredObject :=
  store.lookup key

/-- Model of `ListObjectsV2Command` with a `Prefix`: the objects whose
key starts with the prefix. -/
def s3List (store : Store) (pre : String) : List (String × StoredObject) :=
  store.filter (fun p => strHasPre pre p.1)

/-- Source function `getCorsHeaders()`. -/
def getCorsHeaders : List (String × String) :=
  [("Access-Control-Allow-Origin", "*"),
   ("Access-Control-Allow-Methods", "GET, POST, PUT, DELETE, OPTIONS"),
   ("Access-Control-Allow-Headers",
    "Content-Type,X-Amz-Date,Authorization,X-Api-Key,X-Requested-With,Accept"),
   ("Access-Control-Allow-Credentials", "true"),
   ("Access-Control-Max-Age", "86400")]

/-- One entry of the `listDocuments` response body. -/
structure DocEntry where
  key : String
  fileName : String
  size : Nat
  lastModified : Nat
deriving Repr, DecidableEq

/-- The JSON bodies the handler serialises, kept structured: each
constructor mirrors one `JSON.stringify`/raw-body shape in the source. -/
inductive RespBody
  | preflight                                  -- {message: 'Preflight request successful'}
  | invalidAction                              -- {error: 'Invalid action specified'}
  | invalidFileType                            -- {error: 'Invalid file type', ...}
  | uploadFailed (err : DecodeError)           -- {error: 'Failed to upload file', ...}
  | uploadSuccess (key fileName documentValueCode documentValueTypeCode : String)
  | listing (documents : List DocEntry)        -- {documents}
  | keyRequired                                -- {error: 'Document key is required'}
  | notFound                                   -- {error: 'Document not found'}
  | textDownload (fileName contentType : String) (fileContent : Bytes)
      (metadata : List (String × String))      -- text/plain JSON envelope
  | binaryDownload (bytes : Bytes)             -- raw base64 body
deriving Repr, DecidableEq

/-- The Lambda proxy response shape. -/
structure HttpResponse where
  statusCode : Nat
  headers : List (String × String)
  body : RespBody
  isBase64Encoded : Bool := false
deriving Repr, DecidableEq

/-- Source function `uploadFile(event, headers)`: decode the form, validate the
extension, resolve the content type, and put the object under
`documents/<timestamp>-<fileName>`.  `now` is `Date.now()`; the pair
returned is (response, store after the call).  Any decode rejection is
caught and answered with 500. -/
def uploadFile (e : Event) (parts : List Part) (now : Nat) (store : Store) :
    HttpResponse × Store :=
  match extractFileFromForm e parts with
  | .error err =>
    ({ statusCode := 500, headers := getCorsHeaders,
       body := .uploadFailed err }, store)
  | .ok f =>
    let ext := fileExtension f.fileName
    if ¬ ALLOWED_EXTENSIONS.contains ext then
      ({ statusCode := 400, headers := getCorsHeaders,
         body := .invalidFileType }, store)
    else
      let contentType := resolveContentType ext f.fileType
      let key := "documents/" ++ toString now ++ "-" ++ f.fileName
      let metadata :=
        [("documentValueCode", jsOrStr f.documentValueCode "NA"),
         ("documentValueTypeCode", jsOrStr f.documentValueTypeCode "NA")]
      let store' := s3Put store key
        { body := f.fileData, contentType := contentType,
          metadata := metadata, lastModified := now }
      ({ statusCode := 200, headers := getCorsHeaders,
         body := .uploadSuccess key f.fileName f.documentValueCode
                   f.documentValueTypeCode }, store')

/-- Source function `listDocuments(headers)`: list keys under `documents/`, deriving each
display `fileName` as the last `/`-separated segment of the key. -/
def listDocuments (store : Store) : HttpResponse :=
  let documents := (s3List store "documents/").map (fun item =>
    { key := item.1,
      fileName := jsSplitPop '/' item.1,
      size := item.2.body.length,
      lastModified := item.2.lastModified })
  { statusCode := 200, headers := getCorsHeaders, body := .listing documents }

/-- Source expression `metadata.documentvaluecode || 'NA'`: exact-key lookup in the
metadata mapping, with `'NA'` when the key is absent or its value is the
empty string (falsy). -/
def metaHeader (md : List (String × String)) (k : String) : String :=
  match md.lookup k with
  | some v => jsOrStr v "NA"
  | none => "NA"

/-- Source function `downloadFile(event, headers)`: fetch by the `key` query parameter;
404 on a missing object; `text/plain` objects are answered as a JSON
envelope carrying the metadata mapping, all others as a binary
attachment with the two metadata values surfaced as custom headers read
from the lowercase keys. -/
def downloadFile (e : Event) (store : Store) : HttpResponse :=
  match e.queryKey with
  | none =>
    { statusCode := 400, headers := getCorsHeaders, body := .keyRequired }
  | some key =>
    if key = "" then
      { statusCode := 400, headers := getCorsHeaders, body := .keyRequired }
    else
      match s3Get store key with
      | none =>
        { statusCode := 404, headers := getCorsHeaders, body := .notFound }
      | some obj =>
        let fileName := jsSplitPop '/' key
        let contentType := jsOrStr obj.contentType "application/octet-stream"
        if contentType = "text/plain" then
          { statusCode := 200,
            headers := getCorsHeaders ++ [("Content-Type", "application/json")],
            body := .textDownload fileName contentType obj.body obj.metadata }
        else
          { statusCode := 200,
            headers := getCorsHeaders ++
              [("Content-Type", contentType),
               ("Content-Disposition",
                "attachment; filename=\"" ++ fileName ++ "\""),
               ("Content-Length", toString obj.body.length),
               ("X-Document-Value-Code", metaHeader obj.metadata "documentvaluecode"),
               ("X-Document-Value-Type-Code", metaHeader obj.metadata "documentvaluetypecode")],
            body := .binaryDownload obj.body,
            isBase64Encoded := true }

/-- Source function `exports.handler`: OPTIONS preflight short-circuits; otherwise the
`action` query parameter routes to one of the three flows; anything else
is a 400. Returns (response, store after the call). -/
def handler (e : Event) (parts : List Part) (now : Nat) (store : Store) :
    HttpResponse × Store :=
  if e.httpMethod = "OPTIONS" then
    ({ statusCode := 200, headers := getCorsHeaders, body := .preflight },
     store)
  else
    match e.queryAction with
    | some "uploadFile" => uploadFile e parts now store
    | some "listDocuments" => (listDocuments store, store)
    | some "downloadFile" => (downloadFile e store, store)
    | _ =>
      ({ statusCode := 400, headers := getCorsHeaders,
         body := .invalidAction }, store)

/-! ## Helper lemmas -/

/-- Splitting on a separator that does not occur yields the whole list as
the single group. -/
theorem splitChar_not_mem (sep : Char) (l : List Char) (h : sep ∉ l) :
    splitChar sep l = [l] := by
  induction l with
  | nil => rfl
  | cons c rest ih =>
    have hc : ¬ c = sep := fun hc => h (hc ▸ List.mem_cons_self c rest)
    have hr : sep ∉ rest := fun hr => h (List.mem_cons_of_mem _ hr)
    simp [splitChar, ih hr, hc]

/-- A field part never touches the file components of the decode state. -/
theorem processPart_field_file_eq (s : DecodeState) (n v : String) :
    (processPart s (.field n v)).fileData = s.fileData ∧
    (processPart s (.field n v)).fileName = s.fileName ∧
    (processPart s (.field n v)).fileType = s.fileType := by
  by_cases h1 : n = "documentValueCode" <;>
    by_cases h2 : n = "documentValueTypeCode" <;>
      simp [processPart, h1, h2]

/-- Folding field-only parts leaves the file components of the state
unchanged. -/
theorem foldl_field_only (parts : List Part) (s : DecodeState)
    (h : ∀ p ∈ parts, p.isFile = false) :
    (parts.foldl processPart s).fileData = s.fileData ∧
    (parts.foldl processPart s).fileName = s.fileName ∧
    (parts.foldl processPart s).fileType = s.fileType := by
  induction parts generalizing s with
  | nil => exact ⟨rfl, rfl, rfl⟩
  | cons p rest ih =>
    cases p with
    | file a b c d =>
      exact absurd (h _ (List.mem_cons_self _ _)) (by simp [Part.isFile])
    | field n v =>
      have hrest := ih (processPart s (.field n v))
        (fun q hq => h q (List.mem_cons_of_mem _ hq))
      have hone := processPart_field_file_eq s n v
      refine ⟨?_, ?_, ?_⟩ <;>
        simp only [List.foldl_cons, hrest.1, hrest.2.1, hrest.2.2,
          hone.1, hone.2.1, hone.2.2]

/-- Fetching the key just written returns the object, with its metadata
keys lowercased by the store. -/
theorem s3Get_s3Put_same (store : Store) (key : String) (obj : StoredObject) :
    s3Get (s3Put store key obj) key =
      some { obj with
             metadata := obj.metadata.map (fun p => (lowerStr p.1, p.2)) } := by
  simp [s3Get, s3Put, List.lookup]

/-! ## C2: malformed content-type -/

/-- Upload event with no content-type header at all. -/
def evNoCT : Event :=
  { httpMethod := "POST", contentTypeLower := none, contentTypeUpper := none,
    queryAction := some "uploadFile", queryKey := none }

/-- A one-file part list for concrete runs. -/
def partsPdf : List Part :=
  [.file "file" "report.pdf" "application/octet-stream" [37, 80, 68, 70],
   .field "documentValueCode" "INV001"]

/-- C2 counterexample: with no content-type header the decode does fail
with `MalformedRequest`, but the upload flow answers 500, not the 400 the
claim's taxonomy assigns. -/
theorem c2_counterexample :
    extractFileFromForm evNoCT partsPdf = .error .malformedRequest ∧
    (uploadFile evNoCT partsPdf 0 []).1.statusCode = 500 ∧
    ¬ (uploadFile evNoCT partsPdf 0 []).1.statusCode = 400 :=
  ⟨rfl, rfl, by decide⟩

/-- C2 (amended): for every upload request whose content-type header is
missing or does not declare a multipart form encoding, the decode fails
with `MalformedRequest`, and the upload flow maps this failure to a 500
response (not 400), performing no store write. -/
theorem c2_malformed_request (e : Event) (parts : List Part) (now : Nat)
    (store : Store)
    (h : jsOrOpt e.contentTypeLower e.contentTypeUpper = none ∨
      ∀ ct, jsOrOpt e.contentTypeLower e.contentTypeUpper = some ct →
        jsIncludes ct "multipart/form-data" = false) :
    extractFileFromForm e parts = .error .malformedRequest ∧
    (uploadFile e parts now store).1.statusCode = 500 ∧
    (uploadFile e parts now store).1.body = .uploadFailed .malformedRequest ∧
    (uploadFile e parts now store).2 = store := by
  have hex : extractFileFromForm e parts = .error .malformedRequest := by
    rcases h with h | h
    · simp [extractFileFromForm, h]
    · rcases hct : jsOrOpt e.contentTypeLower e.contentTypeUpper with _ | ct
      · simp [extractFileFromForm, hct]
      · simp [extractFileFromForm, hct, h ct hct]
  exact ⟨hex, by simp [uploadFile, hex], by simp [uploadFile, hex],
    by simp [uploadFile, hex]⟩

/-- C2 witness: the amended theorem at the concrete header-less event. -/
theorem c2_witness :
    extractFileFromForm evNoCT partsPdf = .error .malformedRequest ∧
    (uploadFile evNoCT partsPdf 0 []).1.statusCode = 500 ∧
    (uploadFile evNoCT partsPdf 0 []).1.body = .uploadFailed .malformedRequest ∧
    (uploadFile evNoCT partsPdf 0 []).2 = [] :=
  c2_malformed_request evNoCT partsPdf 0 [] (Or.inl rfl)

/-! ## C6: multipart body with zero file parts -/

/-- C6: when the content-type does declare multipart form data but the
parsed body contains no file part, the decode fails with
`MissingFilePart`, the upload flow answers 500, and the store is left
untouched. -/
theorem c6_missing_file_part (e : Event) (parts : List Part) (now : Nat)
    (store : Store) (ct : String)
    (hct : jsOrOpt e.contentTypeLower e.contentTypeUpper = some ct)
    (hmp : jsIncludes ct "multipart/form-data" = true)
    (hnf : ∀ p ∈ parts, p.isFile = false) :
    extractFileFromForm e parts = .error .missingFilePart ∧
    (uploadFile e parts now store).1.statusCode = 500 ∧
    (uploadFile e parts now store).1.body = .uploadFailed .missingFilePart ∧
    (uploadFile e parts now store).2 = store := by
  have hdata : (parts.foldl processPart initState).fileData = none :=
    (foldl_field_only parts initState hnf).1
  have hex : extractFileFromForm e parts = .error .missingFilePart := by
    simp [extractFileFromForm, hct, hmp, hdata]
  exact ⟨hex, by simp [uploadFile, hex], by simp [uploadFile, hex],
    by simp [uploadFile, hex]⟩

/-- Upload event with a well-formed multipart content-type header. -/
def evUpload : Event :=
  { httpMethod := "POST",
    contentTypeLower := some "multipart/form-data; boundary=xyz",
    contentTypeUpper := none, queryAction := some "uploadFile",
    queryKey := none }

/-- C6 witness: a fields-only multipart body at the concrete event. -/
theorem c6_witness :
    extractFileFromForm evUpload [.field "documentValueCode" "INV001"] =
      .error .missingFilePart ∧
    (uploadFile evUpload [.field "documentValueCode" "INV001"] 0 []).1.statusCode
      = 500 ∧
    (uploadFile evUpload [.field "documentValueCode" "INV001"] 0 []).1.body =
      .uploadFailed .missingFilePart ∧
    (uploadFile evUpload [.field "documentValueCode" "INV001"] 0 []).2 = [] :=
  c6_missing_file_part evUpload [.field "documentValueCode" "INV001"] 0 []
    "multipart/form-data; boundary=xyz" rfl (by decide) (by decide)

/-! ## C7: action routing -/

/-- C7: the handler dispatches exactly as specified: OPTIONS preflight is
answered 200 with the fixed CORS headers and without touching the store;
otherwise the `action` query parameter selects the upload, list or
download flow, and any other or absent action is answered 400
`InvalidAction`. -/
theorem c7_action_router (e : Event) (parts : List Part) (now : Nat)
    (store : Store) :
    (e.httpMethod = "OPTIONS" →
      handler e parts now store =
        ({ statusCode := 200, headers := getCorsHeaders, body := .preflight },
         store)) ∧
    (¬ e.httpMethod = "OPTIONS" →
      (e.queryAction = some "uploadFile" →
        handler e parts now store = uploadFile e parts now store) ∧
      (e.queryAction = some "listDocuments" →
        handler e parts now store = (listDocuments store, store)) ∧
      (e.queryAction = some "downloadFile" →
        handler e parts now store = (downloadFile e store, store)) ∧
      (¬ e.queryAction = some "uploadFile" →
        ¬ e.queryAction = some "listDocuments" →
        ¬ e.queryAction = some "downloadFile" →
        handler e parts now store =
          ({ statusCode := 400, headers := getCorsHeaders,
             body := .invalidAction }, store))) := by
  constructor
  · intro h; simp [handler, h]
  · intro h
    refine ⟨fun hq => by simp [handler, h, hq],
            fun hq => by simp [handler, h, hq],
            fun hq => by simp [handler, h, hq], fun h1 h2 h3 => ?_⟩
    simp only [handler, if_neg h]

/-- C7 witness: the router at concrete preflight, upload, list, download
and unknown-action events. -/
theorem c7_witness :
    handler { evUpload with httpMethod := "OPTIONS" } [] 0 [] =
      ({ statusCode := 200, headers := getCorsHeaders, body := .preflight },
       []) ∧
    handler evUpload partsPdf 0 [] = uploadFile evUpload partsPdf 0 [] ∧
    handler { evUpload with queryAction := some "listDocuments" } [] 0 [] =
      (listDocuments [], []) ∧
    handler { evUpload with queryAction := some "downloadFile" } [] 0 [] =
      (downloadFile { evUpload with queryAction := some "downloadFile" } [],
       []) ∧
    handler { evUpload with queryAction := some "deleteFile" } [] 0 [] =
      ({ statusCode := 400, headers := getCorsHeaders,
         body := .invalidAction }, []) :=
  ⟨(c7_action_router { evUpload with httpMethod := "OPTIONS" } [] 0 []).1 rfl,
   ((c7_action_router evUpload partsPdf 0 []).2 (by decide)).1 rfl,
   ((c7_action_router { evUpload with queryAction := some "listDocuments" }
      [] 0 []).2 (by decide)).2.1 rfl,
   ((c7_action_router { evUpload with queryAction := some "downloadFile" }
      [] 0 []).2 (by decide)).2.2.1 rfl,
   ((c7_action_router { evUpload with queryAction := some "deleteFile" }
      [] 0 []).2 (by decide)).2.2.2 (by decide) (by decide) (by decide)⟩

/-! ## C3: multiple file parts -/

/-- A multipart body with two file parts. -/
def twoFileParts : List Part :=
  [.file "file" "a.txt" "text/plain" [1],
   .file "file" "b.pdf" "application/pdf" [2]]

/-- C3 counterexample: with two file parts the decoded result carries the
second (last) part's bytes, filename and declared type; the first file
part, which the claim says is kept, is not what the decode returns. -/
theorem c3_counterexample :
    extractFileFromForm evUpload twoFileParts =
      .ok { fileData := [2], fileName := "b.pdf",
            fileType := "application/pdf",
            documentValueCode := "", documentValueTypeCode := "" } ∧
    ¬ extractFileFromForm evUpload twoFileParts =
      .ok { fileData := [1], fileName := "a.txt", fileType := "text/plain",
            documentValueCode := "", documentValueTypeCode := "" } := by
  decide

/-- C3 (amended): for every multipart body containing more than one file
part, the decoder keeps the LAST file part encountered — its bytes,
filename, and declared type — and earlier file parts are overwritten by
it. -/
theorem c3_last_file_part_wins (e : Event) (ct : String) (pre post : List Part)
    (fieldname filename mimetype : String) (bytes : Bytes)
    (hct : jsOrOpt e.contentTypeLower e.contentTypeUpper = some ct)
    (hmp : jsIncludes ct "multipart/form-data" = true)
    (hpost : ∀ p ∈ post, p.isFile = false) :
    ∃ f, extractFileFromForm e
        (pre ++ .file fieldname filename mimetype bytes :: post) = .ok f ∧
      f.fileData = bytes ∧ f.fileName = filename ∧ f.fileType = mimetype := by
  obtain ⟨h1, h2, h3⟩ := foldl_field_only post
    (processPart (List.foldl processPart initState pre)
      (Part.file fieldname filename mimetype bytes)) hpost
  have hdata : (List.foldl processPart
      (processPart (List.foldl processPart initState pre)
        (Part.file fieldname filename mimetype bytes)) post).fileData =
      some bytes := by rw [h1]; rfl
  have hname : (List.foldl processPart
      (processPart (List.foldl processPart initState pre)
        (Part.file fieldname filename mimetype bytes)) post).fileName =
      filename := by rw [h2]; rfl
  have htype : (List.foldl processPart
      (processPart (List.foldl processPart initState pre)
        (Part.file fieldname filename mimetype bytes)) post).fileType =
      mimetype := by rw [h3]; rfl
  have hex : extractFileFromForm e
      (pre ++ Part.file fieldname filename mimetype bytes :: post) = .ok
      { fileData := bytes,
        fileName := (List.foldl processPart
          (processPart (List.foldl processPart initState pre)
            (Part.file fieldname filename mimetype bytes)) post).fileName,
        fileType := (List.foldl processPart
          (processPart (List.foldl processPart initState pre)
            (Part.file fieldname filename mimetype bytes)) post).fileType,
        documentValueCode := (List.foldl processPart
          (processPart (List.foldl processPart initState pre)
            (Part.file fieldname filename mimetype bytes)) post).documentValueCode,
        documentValueTypeCode := (List.foldl processPart
          (processPart (List.foldl processPart initState pre)
            (Part.file fieldname filename mimetype bytes)) post).documentValueTypeCode } := by
    simp [extractFileFromForm, hct, hmp, hdata]
  exact ⟨_, hex, rfl, hname, htype⟩

/-- C3 witness: the amended theorem at the concrete two-file body. -/
theorem c3_witness :
    ∃ f, extractFileFromForm evUpload
        ([.file "file" "a.txt" "text/plain" [1]] ++
          .file "file" "b.pdf" "application/pdf" [2] :: []) = .ok f ∧
      f.fileData = [2] ∧ f.fileName = "b.pdf" ∧
      f.fileType = "application/pdf" :=
  c3_last_file_part_wins evUpload "multipart/form-data; boundary=xyz"
    [.file "file" "a.txt" "text/plain" [1]] [] "file" "b.pdf"
    "application/pdf" [2] rfl (by decide) (by decide)

/-! ## C4: unsupported extension -/

/-- C4: when the extracted filename's extension is outside the allow-list
the upload flow answers 400 `Invalid file type` and performs no store
write. -/
theorem c4_unsupported_extension (e : Event) (parts : List Part) (now : Nat)
    (store : Store) (f : ExtractedForm)
    (hok : extractFileFromForm e parts = .ok f)
    (hext : fileExtension f.fileName ∉ ALLOWED_EXTENSIONS) :
    (uploadFile e parts now store).1.statusCode = 400 ∧
    (uploadFile e parts now store).1.body = .invalidFileType ∧
    (uploadFile e parts now store).2 = store := by
  refine ⟨?_, ?_, ?_⟩ <;> simp [uploadFile, hok, hext]

/-- C4 witness: uploading `malware.exe` is rejected with 400 and the
store stays empty. -/
theorem c4_witness :
    (uploadFile evUpload [.file "file" "malware.exe" "application/x-ms" [1]]
      0 []).1.statusCode = 400 ∧
    (uploadFile evUpload [.file "file" "malware.exe" "application/x-ms" [1]]
      0 []).1.body = .invalidFileType ∧
    (uploadFile evUpload [.file "file" "malware.exe" "application/x-ms" [1]]
      0 []).2 = [] :=
  c4_unsupported_extension evUpload
    [.file "file" "malware.exe" "application/x-ms" [1]] 0 []
    { fileData := [1], fileName := "malware.exe",
      fileType := "application/x-ms",
      documentValueCode := "", documentValueTypeCode := "" }
    (by decide) (by decide)

/-! ## C10: dotless filenames -/

/-- C10: a filename without any `.` is treated whole as the extension:
`.` prefixed to the lowercased filename is what the allow-list check
sees, so the upload is accepted (200) exactly when that string is in the
allow-list, and rejected (400) exactly when it is not. -/
theorem c10_dotless_filename (e : Event) (parts : List Part) (now : Nat)
    (store : Store) (f : ExtractedForm)
    (hok : extractFileFromForm e parts = .ok f)
    (hnd : '.' ∉ f.fileName.data) :
    fileExtension f.fileName = "." ++ lowerStr f.fileName ∧
    ((uploadFile e parts now store).1.statusCode = 200 ↔
      ("." ++ lowerStr f.fileName) ∈ ALLOWED_EXTENSIONS) ∧
    ((uploadFile e parts now store).1.statusCode = 400 ↔
      ("." ++ lowerStr f.fileName) ∉ ALLOWED_EXTENSIONS) := by
  have hext : fileExtension f.fileName = "." ++ lowerStr f.fileName := by
    unfold fileExtension jsSplitPop
    rw [splitChar_not_mem '.' f.fileName.data hnd]
    rfl
  refine ⟨hext, ?_, ?_⟩ <;>
    by_cases hmem : ("." ++ lowerStr f.fileName) ∈ ALLOWED_EXTENSIONS <;>
      simp [uploadFile, hok, hext, hmem]

/-- C10 witness: the dotless filename `txt` is accepted while the dotless
filename `report` is rejected with 400. -/
theorem c10_witness :
    (uploadFile evUpload
      [.file "file" "txt" "text/plain" [104]] 7 []).1.statusCode = 200 ∧
    (uploadFile evUpload
      [.file "file" "report" "text/plain" [104]] 7 []).1.statusCode = 400 :=
  ⟨(c10_dotless_filename evUpload [.file "file" "txt" "text/plain" [104]] 7 []
      { fileData := [104], fileName := "txt", fileType := "text/plain",
        documentValueCode := "", documentValueTypeCode := "" }
      (by decide) (by decide)).2.1.mpr (by decide),
   (c10_dotless_filename evUpload [.file "file" "report" "text/plain" [104]]
      7 []
      { fileData := [104], fileName := "report", fileType := "text/plain",
        documentValueCode := "", documentValueTypeCode := "" }
      (by decide) (by decide)).2.2.mpr (by decide)⟩

/-! ## C5: canonical content types -/

/-- The spec's canonical extension-to-MIME table, stated in the spec's
own words, for comparison with the source's resolution. -/
def specCanonicalMime : String → String
  | ".pdf" => "application/pdf"
  | ".docx" =>
    "application/vnd.openxmlformats-officedocument.wordprocessingml.document"
  | ".xlsx" =>
    "application/vnd.openxmlformats-officedocument.spreadsheetml.sheet"
  | ".txt" => "text/plain"
  | ".jpg" => "image/jpeg"
  | ".jpeg" => "image/jpeg"
  | ".png" => "image/png"
  | _ => ""

/-- Lowercasing fixes each of the seven allowed extensions. -/
theorem lowerStr_docx : lowerStr ".docx" = ".docx" := by decide

/-- Lowercasing fixes each of the seven allowed extensions. -/
theorem lowerStr_pdf : lowerStr ".pdf" = ".pdf" := by decide

/-- Lowercasing fixes each of the seven allowed extensions. -/
theorem lowerStr_jpg : lowerStr ".jpg" = ".jpg" := by decide

/-- Lowercasing fixes each of the seven allowed extensions. -/
theorem lowerStr_png : lowerStr ".png" = ".png" := by decide

/-- Lowercasing fixes each of the seven allowed extensions. -/
theorem lowerStr_jpeg : lowerStr ".jpeg" = ".jpeg" := by decide

/-- Lowercasing fixes each of the seven allowed extensions. -/
theorem lowerStr_txt : lowerStr ".txt" = ".txt" := by decide

/-- Lowercasing fixes each of the seven allowed extensions. -/
theorem lowerStr_xlsx : lowerStr ".xlsx" = ".xlsx" := by decide

/-- The store lowercases the first metadata key the upload writes. -/
theorem lowerStr_dvc : lowerStr "documentValueCode" = "documentvaluecode" := by
  decide

/-- The store lowercases the second metadata key the upload writes. -/
theorem lowerStr_dvtc :
    lowerStr "documentValueTypeCode" = "documentvaluetypecode" := by
  decide

/-- C5: for every upload with an allowed extension, the content type
stored with the object is the fixed canonical MIME string for that
extension, independent of the client-declared type (the first conjunct
quantifies over every extension spelling whose lowercasing matches, so
the resolution is case-insensitive, and over every declared type); the
stored object carries exactly that content type and the uploaded bytes. -/
theorem c5_canonical_content_type (e : Event) (parts : List Part) (now : Nat)
    (store : Store) (f : ExtractedForm)
    (hok : extractFileFromForm e parts = .ok f)
    (hin : fileExtension f.fileName ∈ ALLOWED_EXTENSIONS) :
    (∀ ext declared, lowerStr ext = fileExtension f.fileName →
      resolveContentType ext declared =
        specCanonicalMime (fileExtension f.fileName)) ∧
    s3Get (uploadFile e parts now store).2
        ("documents/" ++ toString now ++ "-" ++ f.fileName) =
      some { body := f.fileData,
             contentType := specCanonicalMime (fileExtension f.fileName),
             metadata :=
               [("documentvaluecode", jsOrStr f.documentValueCode "NA"),
                ("documentvaluetypecode",
                 jsOrStr f.documentValueTypeCode "NA")],
             lastModified := now } := by
  simp only [ALLOWED_EXTENSIONS, List.mem_cons, List.not_mem_nil,
    or_false] at hin
  rcases hin with h | h | h | h | h | h | h <;>
    exact ⟨fun ext d hlow => by
        rw [h] at hlow; simp [resolveContentType, hlow, h, specCanonicalMime],
      by simp +decide [uploadFile, hok, h, s3Get_s3Put_same, lowerStr_dvc,
        lowerStr_dvtc, specCanonicalMime, resolveContentType, lowerStr_docx,
        lowerStr_pdf, lowerStr_jpg, lowerStr_png, lowerStr_jpeg, lowerStr_txt,
        lowerStr_xlsx]⟩

/-- C5 witness: the canonical type for an uppercase `.PDF` extension and
the stored object of a concrete upload. -/
theorem c5_witness :
    resolveContentType ".PDF" "application/x-evil" =
      specCanonicalMime (fileExtension "report.pdf") ∧
    s3Get (uploadFile evUpload partsPdf 5 []).2 "documents/5-report.pdf" =
      some { body := [37, 80, 68, 70],
             contentType := specCanonicalMime (fileExtension "report.pdf"),
             metadata := [("documentvaluecode", "INV001"),
                          ("documentvaluetypecode", "NA")],
             lastModified := 5 } :=
  have h := c5_canonical_content_type evUpload partsPdf 5 []
    { fileData := [37, 80, 68, 70], fileName := "report.pdf",
      fileType := "application/octet-stream",
      documentValueCode := "INV001", documentValueTypeCode := "" }
    (by decide) (by decide)
  ⟨h.1 ".PDF" "application/x-evil" (by decide), h.2⟩

/-! ## C8: key prefix and listing filenames -/

/-- C8: every key created by an upload has the shape
`documents/<timestamp>-<originalFilename>` (and so lives under the
`documents/` prefix), and every entry the list flow returns has a
`fileName` equal to the final path segment of its `key`. -/
theorem c8_key_shape_and_listing (e : Event) (parts : List Part) (now : Nat)
    (store : Store) (f : ExtractedForm)
    (hok : extractFileFromForm e parts = .ok f)
    (hin : fileExtension f.fileName ∈ ALLOWED_EXTENSIONS) :
    ((uploadFile e parts now store).1.body =
      .uploadSuccess ("documents/" ++ toString now ++ "-" ++ f.fileName)
        f.fileName f.documentValueCode f.documentValueTypeCode) ∧
    strHasPre "documents/"
      ("documents/" ++ toString now ++ "-" ++ f.fileName) = true ∧
    (∀ (st : Store) (ds : List DocEntry) (d : DocEntry),
      (listDocuments st).body = .listing ds → d ∈ ds →
        d.fileName = jsSplitPop '/' d.key) := by
  refine ⟨by simp [uploadFile, hok, hin], ?_, ?_⟩
  · simp only [strHasPre, String.data_append]
    simp [List.isPrefixOf_iff_prefix]
  · intro st ds d hbody hmem
    have hds : ds = (s3List st "documents/").map (fun item =>
        { key := item.1, fileName := jsSplitPop '/' item.1,
          size := item.2.body.length,
          lastModified := item.2.lastModified }) := by
      have := hbody.symm
      simpa [listDocuments] using this
    subst hds
    rcases List.mem_map.mp hmem with ⟨item, _, rfl⟩
    rfl

/-- C8 witness: the concrete upload's response key and the listing of the
resulting store. -/
theorem c8_witness :
    (uploadFile evUpload partsPdf 5 []).1.body =
      .uploadSuccess ("documents/" ++ toString 5 ++ "-" ++ "report.pdf")
        "report.pdf" "INV001" "" ∧
    strHasPre "documents/"
      ("documents/" ++ toString 5 ++ "-" ++ "report.pdf") = true ∧
    (∀ (ds : List DocEntry) (d : DocEntry),
      (listDocuments (uploadFile evUpload partsPdf 5 []).2).body =
        .listing ds → d ∈ ds → d.fileName = jsSplitPop '/' d.key) :=
  have h := c8_key_shape_and_listing evUpload partsPdf 5 []
    { fileData := [37, 80, 68, 70], fileName := "report.pdf",
      fileType := "application/octet-stream",
      documentValueCode := "INV001", documentValueTypeCode := "" }
    (by decide) (by decide)
  ⟨h.1, h.2.1,
   fun ds d hbody hmem =>
     h.2.2 (uploadFile evUpload partsPdf 5 []).2 ds d hbody hmem⟩

/-! ## C1: upload/download round trip -/

/-- Observation: the file bytes a client recovers from a download
response — the JSON envelope's content on the text path, the raw
(base64-flagged) body on the binary path. -/
def respFileBytes (r : HttpResponse) : Option Bytes :=
  match r.body with
  | .textDownload _ _ content _ => some content
  | .binaryDownload bs => some bs
  | _ => none

/-- Observation: the `documentValueCode` a client recovers from a
download response — from the returned metadata mapping on the text path,
from the custom header on the binary path. -/
def respDocValueCode (r : HttpResponse) : Option String :=
  match r.body with
  | .textDownload _ _ _ md => md.lookup "documentvaluecode"
  | .binaryDownload _ => r.headers.lookup "X-Document-Value-Code"
  | _ => none

/-- Observation: the `documentValueTypeCode` a client recovers from a
download response. -/
def respDocValueTypeCode (r : HttpResponse) : Option String :=
  match r.body with
  | .textDownload _ _ _ md => md.lookup "documentvaluetypecode"
  | .binaryDownload _ => r.headers.lookup "X-Document-Value-Type-Code"
  | _ => none

/-- A string starting with a non-empty literal is not empty. -/
theorem append_ne_empty (s t : String) (h : ¬ s.data = []) :
    ¬ (s ++ t) = "" := by
  intro hc
  have hd : s.data ++ t.data = ([] : List Char) := by
    have := congrArg String.data hc
    rwa [String.data_append] at this
  exact h (List.append_eq_nil.mp hd).1

/-- Upload keys are never the empty string. -/
theorem upload_key_ne_empty (x fn : String) :
    ¬ ("documents/" ++ x ++ "-" ++ fn) = "" := by
  have h1 : ¬ ("documents/" ++ x).data = [] := by
    intro hc
    have : ("documents/" ++ x) = "" := congrArg String.mk hc
    exact append_ne_empty "documents/" x (by decide) this
  have h2 : ¬ ("documents/" ++ x ++ "-").data = [] := by
    intro hc
    have : ("documents/" ++ x ++ "-") = "" := congrArg String.mk hc
    exact append_ne_empty ("documents/" ++ x) "-" h1 this
  exact append_ne_empty ("documents/" ++ x ++ "-") fn h2

/-- Looking the value-code header up in the binary download header list
skips the fixed CORS and content headers. -/
theorem lookup_header_dvc (ct cd cl v w : String) :
    (getCorsHeaders ++
      [("Content-Type", ct), ("Content-Disposition", cd),
       ("Content-Length", cl), ("X-Document-Value-Code", v),
       ("X-Document-Value-Type-Code", w)]).lookup "X-Document-Value-Code" =
      some v := by
  simp [getCorsHeaders, List.lookup]

/-- Looking the value-type-code header up in the binary download header
list skips the fixed CORS and content headers. -/
theorem lookup_header_dvtc (ct cd cl v w : String) :
    (getCorsHeaders ++
      [("Content-Type", ct), ("Content-Disposition", cd),
       ("Content-Length", cl), ("X-Document-Value-Code", v),
       ("X-Document-Value-Type-Code", w)]).lookup
      "X-Document-Value-Type-Code" = some w := by
  simp [getCorsHeaders, List.lookup]

/-- C1: uploading a file (with an allowed extension) and then downloading
by the key named in the upload response yields byte-identical content and
the original metadata values, with the literal string `"NA"` substituted
exactly for the fields that were omitted (empty) at upload. -/
theorem c1_roundtrip (e etwo : Event) (parts : List Part) (now : Nat)
    (store : Store) (f : ExtractedForm)
    (hok : extractFileFromForm e parts = .ok f)
    (hin : fileExtension f.fileName ∈ ALLOWED_EXTENSIONS)
    (hkey : etwo.queryKey =
      some ("documents/" ++ toString now ++ "-" ++ f.fileName)) :
    (uploadFile e parts now store).1.body =
      .uploadSuccess ("documents/" ++ toString now ++ "-" ++ f.fileName)
        f.fileName f.documentValueCode f.documentValueTypeCode ∧
    (downloadFile etwo (uploadFile e parts now store).2).statusCode = 200 ∧
    respFileBytes (downloadFile etwo (uploadFile e parts now store).2) =
      some f.fileData ∧
    respDocValueCode (downloadFile etwo (uploadFile e parts now store).2) =
      some (if f.documentValueCode = "" then "NA"
            else f.documentValueCode) ∧
    respDocValueTypeCode
        (downloadFile etwo (uploadFile e parts now store).2) =
      some (if f.documentValueTypeCode = "" then "NA"
            else f.documentValueTypeCode) := by
  have hne := upload_key_ne_empty (toString now) f.fileName
  simp only [ALLOWED_EXTENSIONS, List.mem_cons, List.not_mem_nil,
    or_false] at hin
  rcases hin with h | h | h | h | h | h | h <;>
    by_cases hc1 : f.documentValueCode = "" <;>
      by_cases hc2 : f.documentValueTypeCode = "" <;>
        simp +decide [uploadFile, hok, h, downloadFile, hkey, hne,
          s3Get_s3Put_same, respFileBytes, respDocValueCode,
          respDocValueTypeCode, metaHeader, jsOrStr, lowerStr_dvc,
          lowerStr_dvtc, resolveContentType, lowerStr_docx, lowerStr_pdf,
          lowerStr_jpg, lowerStr_png, lowerStr_jpeg, lowerStr_txt,
          lowerStr_xlsx, lookup_header_dvc, lookup_header_dvtc,
          List.lookup, hc1, hc2]

/-- The download request for the key the concrete upload returns. -/
def evDownloadPdf : Event :=
  { httpMethod := "GET", contentTypeLower := none, contentTypeUpper := none,
    queryAction := some "downloadFile",
    queryKey := some ("documents/" ++ toString 5 ++ "-" ++ "report.pdf") }

/-- C1 witness: the round trip at a concrete pdf upload with one field
set and one omitted. -/
theorem c1_witness :
    (uploadFile evUpload partsPdf 5 []).1.body =
      .uploadSuccess ("documents/" ++ toString 5 ++ "-" ++ "report.pdf")
        "report.pdf" "INV001" "" ∧
    (downloadFile evDownloadPdf
      (uploadFile evUpload partsPdf 5 []).2).statusCode = 200 ∧
    respFileBytes (downloadFile evDownloadPdf
      (uploadFile evUpload partsPdf 5 []).2) = some [37, 80, 68, 70] ∧
    respDocValueCode (downloadFile evDownloadPdf
      (uploadFile evUpload partsPdf 5 []).2) =
      some (if "INV001" = "" then "NA" else "INV001") ∧
    respDocValueTypeCode (downloadFile evDownloadPdf
      (uploadFile evUpload partsPdf 5 []).2) =
      some (if "" = "" then "NA" else "") :=
  c1_roundtrip evUpload evDownloadPdf partsPdf 5 []
    { fileData := [37, 80, 68, 70], fileName := "report.pdf",
      fileType := "application/octet-stream",
      documentValueCode := "INV001", documentValueTypeCode := "" }
    (by decide) (by decide) rfl

/-! ## C9: binary download reads lowercase metadata keys -/

/-- C9: on the binary (non `text/plain`) download path, the two custom
response headers are read from the all-lowercase metadata keys
`documentvaluecode` and `documentvaluetypecode`; when the object's
metadata mapping does not carry a value under those exact lowercase keys
(for example because it only carries a camelCase spelling), the headers
are the literal string `"NA"`. -/
theorem c9_lowercase_metadata_keys (e : Event) (store : Store) (key : String)
    (obj : StoredObject)
    (hkey : e.queryKey = some key) (hne : ¬ key = "")
    (hget : s3Get store key = some obj)
    (hbin : ¬ jsOrStr obj.contentType "application/octet-stream" =
      "text/plain") :
    (downloadFile e store).headers.lookup "X-Document-Value-Code" =
      some (metaHeader obj.metadata "documentvaluecode") ∧
    (downloadFile e store).headers.lookup "X-Document-Value-Type-Code" =
      some (metaHeader obj.metadata "documentvaluetypecode") ∧
    (obj.metadata.lookup "documentvaluecode" = none →
      (downloadFile e store).headers.lookup "X-Document-Value-Code" =
        some "NA") ∧
    (obj.metadata.lookup "documentvaluetypecode" = none →
      (downloadFile e store).headers.lookup "X-Document-Value-Type-Code" =
        some "NA") := by
  have h1 : (downloadFile e store).headers.lookup "X-Document-Value-Code" =
      some (metaHeader obj.metadata "documentvaluecode") := by
    simp [downloadFile, hkey, hne, hget, hbin, lookup_header_dvc]
  have h2 : (downloadFile e store).headers.lookup
      "X-Document-Value-Type-Code" =
      some (metaHeader obj.metadata "documentvaluetypecode") := by
    simp [downloadFile, hkey, hne, hget, hbin, lookup_header_dvtc]
  refine ⟨h1, h2, fun hnone => ?_, fun hnone => ?_⟩
  · rw [h1]; simp [metaHeader, hnone]
  · rw [h2]; simp [metaHeader, hnone]

/-- An object whose metadata carries the value only under the camelCase
spelling the upload flow writes (before the store lowercases it). -/
def objCamel : StoredObject :=
  { body := [1], contentType := "application/pdf",
    metadata := [("documentValueCode", "INV001"),
                 ("documentValueTypeCode", "T01")], lastModified := 0 }

/-- The download request used in the C9 witness. -/
def evDownloadCamel : Event :=
  { httpMethod := "GET", contentTypeLower := none, contentTypeUpper := none,
    queryAction := some "downloadFile", queryKey := some "documents/0-a.pdf" }

/-- C9 witness: downloading an object whose metadata only carries the
camelCase spellings surfaces `"NA"` in both headers. -/
theorem c9_witness :
    (downloadFile evDownloadCamel
      [("documents/0-a.pdf", objCamel)]).headers.lookup
      "X-Document-Value-Code" = some "NA" ∧
    (downloadFile evDownloadCamel
      [("documents/0-a.pdf", objCamel)]).headers.lookup
      "X-Document-Value-Type-Code" = some "NA" :=
  have h := c9_lowercase_metadata_keys evDownloadCamel
    [("documents/0-a.pdf", objCamel)] "documents/0-a.pdf" objCamel
    rfl (by decide) (by decide) (by decide)
  ⟨h.2.2.1 (by decide), h.2.2.2 (by decide)⟩

end ManageDoc
